import Mathlib

/-!
Verification development for the MIRROR simulator core (pymirror/mirror.py).

The Python state is embedded shallowly: every entity (process, transaction,
resource) lives in an association list keyed by a numeric id inside one
record `MirrorState`, mirroring the object graph of the source.  Mutating
methods become state transformers; methods whose call graph recurses
(complete, release_all, commit, remove_job, abort, restart, acquire) take a
fuel argument and are exact for every sufficiently large fuel.  The draws
of the global random module are passed in as explicit inputs.  The heap
functions reproduce CPython heapq (heappush, heappop, heapify with
_siftup and _siftdown) verbatim, parameterized by the comparison, because
the source keeps its schedules and wait queues as heapq lists and also
iterates and mutates them directly.
-/

namespace PyMirror

/-- Remove the first element satisfying the predicate, as list.remove does. -/
def removeFirstP {α : Type} (pred : α → Bool) : List α → List α
  | [] => []
  | x :: xs => if pred x then xs else x :: removeFirstP pred xs

/-- CPython heapq._siftdown loop: move parents down while the new item
compares below them, then store the new item.  The first argument is a
step bound used as the structural measure: the position falls by at least
one per step, so a bound of the starting position makes the function
exactly the while loop of the source.  `heap.set` is in bounds at every
call site, as in the source. -/
def pySiftdownLoop {α : Type} [Inhabited α] (lt : α → α → Bool) (newitem : α) :
    Nat → List α → Nat → Nat → List α
  | 0, heap, _, pos => heap.set pos newitem
  | bound + 1, heap, startpos, pos =>
    if startpos < pos then
      let parentpos := (pos - 1) / 2
      let parent := heap.getD parentpos default
      if lt newitem parent then
        pySiftdownLoop lt newitem bound (heap.set pos parent) startpos parentpos
      else
        heap.set pos newitem
    else
      heap.set pos newitem

/-- CPython heapq._siftdown. -/
def pySiftdown {α : Type} [Inhabited α] (lt : α → α → Bool)
    (heap : List α) (startpos pos : Nat) : List α :=
  pySiftdownLoop lt (heap.getD pos default) pos heap startpos pos

/-- CPython heapq.heappush: append, then sift down from the last slot. -/
def pyHeappush {α : Type} [Inhabited α] (lt : α → α → Bool)
    (heap : List α) (item : α) : List α :=
  pySiftdown lt (heap ++ [item]) 0 heap.length

/-- CPython heapq._siftup bubbling loop: move the smaller child up until a
leaf is reached, returning the heap and the final position.  The first
argument is a step bound used as the structural measure: the position
rises by at least one per step and stays below endpos, so a bound of
endpos makes the function exactly the while loop of the source. -/
def pySiftupLoop {α : Type} [Inhabited α] (lt : α → α → Bool) (endpos : Nat) :
    Nat → List α → Nat → List α × Nat
  | 0, heap, pos => (heap, pos)
  | bound + 1, heap, pos =>
    let childpos := 2 * pos + 1
    if childpos < endpos then
      let rightpos := childpos + 1
      if rightpos < endpos ∧
          lt (heap.getD childpos default) (heap.getD rightpos default) = false then
        pySiftupLoop lt endpos bound (heap.set pos (heap.getD rightpos default)) rightpos
      else
        pySiftupLoop lt endpos bound (heap.set pos (heap.getD childpos default)) childpos
    else
      (heap, pos)

/-- CPython heapq._siftup: bubble the hole to a leaf, place the displaced
item there, then sift it down toward the start position. -/
def pySiftup {α : Type} [Inhabited α] (lt : α → α → Bool)
    (heap : List α) (pos : Nat) : List α :=
  let endpos := heap.length
  let newitem := heap.getD pos default
  let r := pySiftupLoop lt endpos endpos heap pos
  pySiftdownLoop lt newitem r.2 (r.1.set r.2 newitem) pos r.2

/-- CPython heapq.heappop: pop the last element, move it to the root and
sift up.  The source only calls it on a non-empty heap. -/
def pyHeappop {α : Type} [Inhabited α] (lt : α → α → Bool)
    (heap : List α) : α × List α :=
  let lastelt := heap.getD (heap.length - 1) default
  let rest := heap.take (heap.length - 1)
  if rest.isEmpty then (lastelt, [])
  else (rest.getD 0 default, pySiftup lt (rest.set 0 lastelt) 0)

/-- Inner loop of CPython heapq.heapify, visiting n / 2 - 1 down to 0. -/
def pyHeapifyLoop {α : Type} [Inhabited α] (lt : α → α → Bool)
    (heap : List α) : Nat → List α
  | 0 => heap
  | i + 1 => pyHeapifyLoop lt (pySiftup lt heap i) i

/-- CPython heapq.heapify. -/
def pyHeapify {α : Type} [Inhabited α] (lt : α → α → Bool)
    (heap : List α) : List α :=
  pyHeapifyLoop lt heap (heap.length / 2)

abbrev ProcId := Nat
abbrev TxId := Nat
abbrev ResId := Nat

/-- MirrorOptions of mirror.py: the configuration record of a run.  The
field list is exactly that of the source; there is no seed field. -/
structure MirrorOptions where
  db_size : Nat
  replicas : Nat
  cpu_count : Nat
  sim_size : Nat
  access_time : Int
  buffered_time : Int
  buffered_chance : Rat
  write_time : Int
  spawn_time : Int
  arrival_rate : Rat
  deadline_slack : Int
  transaction_size : Int × Int
  write_chance : Rat
deriving DecidableEq, Repr

/-- The default MirrorOptions values of the source. -/
def Mirror.default_options : MirrorOptions :=
  { db_size := 1000, replicas := 4, cpu_count := 8, sim_size := 1000,
    access_time := 20, buffered_time := 10, buffered_chance := 1/10,
    write_time := 2, spawn_time := 1, arrival_rate := 16,
    deadline_slack := 6, transaction_size := (5, 16), write_chance := 1/4 }

/-- The mutable attributes of a Process object.  `ptype` is 0 for a Worker,
1 for a Writer, 2 for an Updater, exactly the integers the source stores;
`pstate` is 0 Begin, 1 Expand, 2 Contract, 3 Complete.  `lock` holds the
resource id and copy index of the held Lock, mirroring the back-reference. -/
structure Proc where
  owner : TxId
  arrival : Int
  length : Int
  add_length : Int
  progress : Int
  ptype : Nat
  pstate : Nat
  target : ResId
  updaters : List ProcId
  lock : Option (ResId × Nat)
  last_tick : Int
deriving DecidableEq, Repr

instance : Inhabited Proc :=
  ⟨{ owner := 0, arrival := 0, length := 0, add_length := 0, progress := 0,
     ptype := 0, pstate := 0, target := 0, updaters := [], lock := none,
     last_tick := 0 }⟩

/-- The mutable attributes of a Transaction object. -/
structure Tx where
  processes : List ProcId
  dependencies : List ResId
  arrival : Int
  deadline : Int
deriving DecidableEq, Repr

instance : Inhabited Tx :=
  ⟨{ processes := [], dependencies := [], arrival := 0, deadline := 0 }⟩

/-- A Resource: the holder of each Lock in copies, and the blocking queue,
a heapq list of (priority, process) pairs. -/
structure Res where
  copies : List (Option ProcId)
  queue : List (Int × ProcId)
deriving DecidableEq, Repr

instance : Inhabited Res := ⟨{ copies := [], queue := [] }⟩

/-- The whole mutable state of a Mirror run: the counters of
Mirror.__init__ (finished, missed, started, _badtick), the live
transaction list, the global process heap, and the stores of all Process,
Transaction and Resource objects keyed by id.  `nextProc` allocates fresh
process ids.  Mirror.__init__ has no abort counter and no seed field. -/
structure MirrorState where
  options : MirrorOptions
  clock : Int
  finished : Nat
  missed : Nat
  started : Nat
  badtick : Nat
  transactions : List TxId
  processes : List (Int × ProcId)
  procs : List (ProcId × Proc)
  txs : List (TxId × Tx)
  ress : List (ResId × Res)
  nextProc : ProcId
deriving DecidableEq, Repr

/-- Lookup in an association list keyed by id, the first binding
counting, as Python resolves an object reference. -/
def alook {β : Type} : List (Nat × β) → Nat → Option β
  | [], _ => none
  | (a, v) :: t, k => if k = a then some v else alook t k

/-- Attribute read p.<field> through the store; a missing id yields the
default object, which no embedded call path dereferences. -/
def MirrorState.proc (s : MirrorState) (pid : ProcId) : Proc :=
  (alook s.procs pid).getD default

def MirrorState.tx (s : MirrorState) (tid : TxId) : Tx :=
  (alook s.txs tid).getD default

def MirrorState.res (s : MirrorState) (rid : ResId) : Res :=
  (alook s.ress rid).getD default

/-- Mutate one Process object in place. -/
def updProc (s : MirrorState) (pid : ProcId) (f : Proc → Proc) : MirrorState :=
  { s with procs := s.procs.map (fun kv => if kv.1 = pid then (kv.1, f kv.2) else kv) }

/-- Mutate one Transaction object in place. -/
def updTx (s : MirrorState) (tid : TxId) (f : Tx → Tx) : MirrorState :=
  { s with txs := s.txs.map (fun kv => if kv.1 = tid then (kv.1, f kv.2) else kv) }

/-- Mutate one Resource object in place. -/
def updRes (s : MirrorState) (rid : ResId) (f : Res → Res) : MirrorState :=
  { s with ress := s.ress.map (fun kv => if kv.1 = rid then (kv.1, f kv.2) else kv) }

/-- Process.priority: the deadline of the owning transaction, read at the
moment of use. -/
def Process.priority (s : MirrorState) (pid : ProcId) : Int :=
  (s.tx (s.proc pid).owner).deadline

/-- Process.__eq__: equal priority and equal arrival. -/
def Process.eqPy (s : MirrorState) (a b : ProcId) : Bool :=
  Process.priority s a = Process.priority s b ∧
    (s.proc a).arrival = (s.proc b).arrival

/-- Process.__lt__: priority, then arrival, then state. -/
def Process.ltPy (s : MirrorState) (a b : ProcId) : Bool :=
  if Process.priority s a = Process.priority s b then
    if (s.proc a).arrival = (s.proc b).arrival then
      decide ((s.proc a).pstate < (s.proc b).pstate)
    else decide ((s.proc a).arrival < (s.proc b).arrival)
  else decide (Process.priority s a < Process.priority s b)

/-- Comparison of the (priority, Process) pairs stored in the heaps: the
tuple order of Python, using Process.__eq__ and Process.__lt__ on ties. -/
def tupLt (s : MirrorState) (a b : Int × ProcId) : Bool :=
  if a.1 = b.1 then
    if Process.eqPy s a.2 b.2 then false else Process.ltPy s a.2 b.2
  else decide (a.1 < b.1)

/-- Equality of stored (priority, Process) pairs, as list membership and
list.remove test it. -/
def tupEq (s : MirrorState) (a b : Int × ProcId) : Bool :=
  a.1 = b.1 ∧ Process.eqPy s a.2 b.2

/-- Mirror.pa_pb: the preemption policy.  An Updater holder is preempted
only while it waits without a lock; a holder in Contract or beyond is
never preempted; otherwise the holder is aborted when holder.priority is
less than requestor.priority, the comparison the source writes. -/
def Mirror.pa_pb (s : MirrorState) (holder requestor : ProcId) : Bool :=
  let h := s.proc holder
  if h.ptype = 2 then
    if h.lock = none then
      decide (Process.priority s holder < Process.priority s requestor)
    else false
  else if 2 ≤ h.pstate then false
  else decide (Process.priority s holder < Process.priority s requestor)

/-- Mirror.submit_job: push (priority, process) on the global heap. -/
def Mirror.submit_job (s : MirrorState) (pid : ProcId) : MirrorState :=
  { s with processes := pyHeappush (tupLt s) s.processes (Process.priority s pid, pid) }

/-- Mirror.transaction_finish: count the transaction as missed or finished
and drop it from the live list; a transaction no longer live is ignored. -/
def Mirror.transaction_finish (s : MirrorState) (tid : TxId) (miss : Bool) : MirrorState :=
  if tid ∈ s.transactions then
    let s := if miss then { s with missed := s.missed + 1 }
             else { s with finished := s.finished + 1 }
    { s with transactions := s.transactions.erase tid }
  else s

/-- Resource.release: free the Lock held by the process, handing it to the
popped head of the wait queue when one exists; a process holding no copy
is removed from the wait queue when a stored pair compares equal to it. -/
def Resource.release (s : MirrorState) (rid : ResId) (pid : ProcId) : MirrorState :=
  match (s.res rid).copies.findIdx? (fun c => c = some pid) with
  | some i =>
    let s := updProc s pid (fun p => { p with lock := none })
    if (s.res rid).queue.length < 1 then
      updRes s rid (fun r => { r with copies := r.copies.set i none })
    else
      let popped := pyHeappop (tupLt s) (s.res rid).queue
      let np := popped.1.2
      let s := updRes s rid (fun r => { r with queue := popped.2 })
      let s := updProc s np (fun p => { p with lock := some (rid, i) })
      updRes s rid (fun r => { r with copies := r.copies.set i (some np) })
  | none =>
    let j : Int × ProcId := (Process.priority s pid, pid)
    if (s.res rid).queue.any (fun it => tupEq s it j) then
      updRes s rid (fun r =>
        { r with queue := pyHeapify (tupLt s) (removeFirstP (fun it => tupEq s it j) r.queue) })
    else s

/-- The Process object one iteration of Transaction.spawn_processes
creates: plen is access_time, or buffered_time when the buffered draw q1
fires, plus write_time when the writer draw q2 fires, which also sets the
Writer type. -/
def spawnProc (s : MirrorState) (tid : TxId) (r : ResId) (i : Nat)
    (q1 q2 : Nat → Rat) : Proc :=
  { owner := tid, arrival := s.clock,
    length :=
      if q2 i < s.options.write_chance then
        (if q1 i > s.options.buffered_chance then s.options.access_time
          else s.options.buffered_time) + s.options.write_time
      else
        (if q1 i > s.options.buffered_chance then s.options.access_time
          else s.options.buffered_time),
    add_length := 0, progress := 0,
    ptype := if q2 i < s.options.write_chance then 1 else 0, pstate := 0,
    target := r, updaters := [], lock := none, last_tick := 0 }

/-- One iteration of Transaction.spawn_processes: create the Process,
append it to the processes list of the transaction, submit it. -/
def spawnOne (s : MirrorState) (tid : TxId) (r : ResId) (i : Nat)
    (q1 q2 : Nat → Rat) : MirrorState :=
  Mirror.submit_job
    (updTx
      { s with
        procs := s.procs ++ [(s.nextProc, spawnProc s tid r i q1 q2)],
        nextProc := s.nextProc + 1 }
      tid
      (fun t => { t with processes := t.processes ++ [s.nextProc] }))
    s.nextProc

/-- The loop of Transaction.spawn_processes over the dependency list. -/
def spawnLoop (s : MirrorState) (tid : TxId) :
    List ResId → Nat → (Nat → Rat) → (Nat → Rat) → MirrorState
  | [], _, _, _ => s
  | r :: rest, i, q1, q2 => spawnLoop (spawnOne s tid r i q1 q2) tid rest (i + 1) q1 q2

/-- Transaction.spawn_processes: one process per dependency. -/
def Transaction.spawn_processes (s : MirrorState) (tid : TxId)
    (q1 q2 : Nat → Rat) : MirrorState :=
  spawnLoop s tid ((s.tx tid).dependencies) 0 q1 q2

/-- The expected-length sum of Transaction.begin: access_time plus
write_time for writers, read from the process objects just created. -/
def expectedSum (s : MirrorState) (ps : List ProcId) : Int :=
  (ps.map (fun pid =>
    s.options.access_time +
      (if (s.proc pid).ptype = 1 then s.options.write_time else 0))).sum

/-- Transaction.begin: reset the deadline to the arrival, store the sampled
dependencies (`picks` is the result of random.sample and its length the
result of random.randint), spawn the processes, then extend the deadline
by deadline_slack times the expected-length sum. -/
def Transaction.begin (s : MirrorState) (tid : TxId) (picks : List ResId)
    (q1 q2 : Nat → Rat) : MirrorState :=
  let s := updTx s tid (fun t => { t with deadline := t.arrival })
  let s := updTx s tid (fun t => { t with dependencies := picks })
  let s := Transaction.spawn_processes s tid q1 q2
  let total := expectedSum s ((s.tx tid).processes)
  updTx s tid (fun t => { t with deadline := t.deadline + total * s.options.deadline_slack })

/-- Process.spawn_updater: create an Updater on the same target with
length write_time, append it to the updaters list, submit it. -/
def Process.spawn_updater (s : MirrorState) (parent : ProcId) : MirrorState :=
  let par := s.proc parent
  let uid := s.nextProc
  let u : Proc :=
    { owner := par.owner, arrival := s.clock, length := s.options.write_time,
      add_length := 0, progress := 0, ptype := 2, pstate := 0,
      target := par.target, updaters := [], lock := none, last_tick := 0 }
  let s := { s with procs := s.procs ++ [(uid, u)], nextProc := uid + 1 }
  let s := updProc s parent (fun p => { p with updaters := p.updaters ++ [uid] })
  Mirror.submit_job s uid

/-- Process.spawning: a Writer in Contract that has created fewer than
replicas - 1 updaters. -/
def Process.spawning (s : MirrorState) (pid : ProcId) : Bool :=
  let p := s.proc pid
  if p.ptype ≠ 1 then false
  else if p.pstate ≠ 2 then false
  else decide (p.updaters.length < s.options.replicas - 1)

/-- Process.blocking: the scheduler-skip predicate of the source. -/
def Process.blocking (s : MirrorState) (pid : ProcId) : Bool :=
  let p := s.proc pid
  if p.pstate = 3 then true
  else if p.pstate ≠ 0 ∧ p.lock = none then true
  else if p.ptype = 1 ∧ Process.spawning s pid = false ∧
      p.updaters.any (fun u => (s.proc u).pstate < 2) then true
  else if p.ptype = 2 ∧ 2 ≤ p.pstate then true
  else false

/-- The mutually recursive method calls of the source: release_all and
its updater loop, complete, commit, remove_job and its loop inside abort,
and abort.  One tag per call lets the whole call graph run as a single
function with a structural fuel, so that concrete runs reduce in the
kernel. -/
inductive MCall where
  | releaseAll (pid : ProcId)
  | releaseUpdaters (rid : ResId) (us : List ProcId)
  | complete (pid : ProcId)
  | commit (tid : TxId) (pid : ProcId)
  | removeJob (pid : ProcId)
  | removeJobs (ps : List ProcId)
  | abort (tid : TxId)
deriving Repr

/-- One interpreter for the recursive methods of the source; each branch
is the body of the named Python method, and every nested call spends one
unit of fuel, so the interpreter agrees with the source whenever the fuel
exceeds the call depth.  The wrappers below restore the source names. -/
def mirrorStep : Nat → MirrorState → MCall → MirrorState
  | 0, s, _ => s
  | fuel + 1, s, c =>
    match c with
    | .releaseAll pid =>
      let p := s.proc pid
      let s := Resource.release s p.target pid
      mirrorStep fuel s (.releaseUpdaters p.target p.updaters)
    | .releaseUpdaters _ [] => s
    | .releaseUpdaters rid (u :: rest) =>
      let s := Resource.release s rid u
      let s := mirrorStep fuel s (.complete u)
      mirrorStep fuel s (.releaseUpdaters rid rest)
    | .complete pid =>
      let s := updProc s pid (fun p => { p with pstate := 3 })
      let s := mirrorStep fuel s (.releaseAll pid)
      mirrorStep fuel s (.commit ((s.proc pid).owner) pid)
    | .commit tid pid =>
      if (s.tx tid).deadline < s.clock then
        Mirror.transaction_finish s tid true
      else if ((s.tx tid).processes.any (fun q => Process.eqPy s q pid)) = false then s
      else
        let s := mirrorStep fuel s (.removeJob pid)
        if (s.tx tid).processes.all (fun q => (s.proc q).pstate = 3) then
          Mirror.transaction_finish s tid false
        else s
    | .removeJob pid =>
      let s := mirrorStep fuel s (.releaseAll pid)
      let j : Int × ProcId := (Process.priority s pid, pid)
      if s.processes.any (fun it => tupEq s it j) then
        { s with processes := pyHeapify (tupLt s) (removeFirstP (fun it => tupEq s it j) s.processes) }
      else s
    | .removeJobs [] => s
    | .removeJobs (p :: rest) =>
      mirrorStep fuel (mirrorStep fuel s (.removeJob p)) (.removeJobs rest)
    | .abort tid =>
      let s := mirrorStep fuel s (.removeJobs ((s.tx tid).processes))
      updTx s tid (fun t => { t with processes := [] })

/-- Process.release_all: release the Lock on the target, then release and
complete every updater. -/
def Process.release_all (fuel : Nat) (s : MirrorState) (pid : ProcId) : MirrorState :=
  mirrorStep fuel s (.releaseAll pid)

/-- Process.complete: set state Complete, release everything, then notify
the owning transaction through commit. -/
def Process.complete (fuel : Nat) (s : MirrorState) (pid : ProcId) : MirrorState :=
  mirrorStep fuel s (.complete pid)

/-- Transaction.commit: finish as missed past the deadline; ignore a
process that no stored process compares equal to; otherwise remove the
job and finish as succeeded once every stored process is Complete. -/
def Transaction.commit (fuel : Nat) (s : MirrorState) (tid : TxId) (pid : ProcId) :
    MirrorState :=
  mirrorStep fuel s (.commit tid pid)

/-- Mirror.remove_job: release all locks of the process, then remove its
(priority, process) pair from the global heap when a stored pair compares
equal to it, rebuilding the heap. -/
def Mirror.remove_job (fuel : Nat) (s : MirrorState) (pid : ProcId) : MirrorState :=
  mirrorStep fuel s (.removeJob pid)

/-- Transaction.abort: remove every job of the transaction from the
simulation, then clear the process list. -/
def Transaction.abort (fuel : Nat) (s : MirrorState) (tid : TxId) : MirrorState :=
  mirrorStep fuel s (.abort tid)

/-- Transaction.restart: abort, then re-spawn the processes on the same
dependencies when the deadline has not passed. -/
def Transaction.restart (fuel : Nat) (s : MirrorState) (tid : TxId)
    (q1 q2 : Nat → Rat) : MirrorState :=
  match fuel with
  | 0 => s
  | fuel + 1 =>
    let s := Transaction.abort fuel s tid
    if s.clock ≤ (s.tx tid).deadline then Transaction.spawn_processes s tid q1 q2
    else s

/-- Resource.acquire: bind the process to the first free Lock; otherwise
scan the holders in order and on the first one the policy aborts, restart
that holder and seat the requestor on that copy; otherwise push the
requestor on the wait queue.  Returns the state and the acquired flag. -/
def Resource.acquire (fuel : Nat) (s : MirrorState) (rid : ResId) (pid : ProcId)
    (q1 q2 : Nat → Rat) : MirrorState × Bool :=
  match fuel with
  | 0 => (s, false)
  | fuel + 1 =>
    let r := s.res rid
    match r.copies.findIdx? (fun c => c = none) with
    | some i =>
      let s := updProc s pid (fun p => { p with lock := some (rid, i) })
      (updRes s rid (fun r => { r with copies := r.copies.set i (some pid) }), true)
    | none =>
      match r.copies.findIdx? (fun c =>
          match c with
          | some h => Mirror.pa_pb s h pid
          | none => false) with
      | some i =>
        let victim := (r.copies.getD i none).getD 0
        let s := Transaction.restart fuel s ((s.proc victim).owner) q1 q2
        let s := updProc s pid (fun p => { p with lock := some (rid, i) })
        (updRes s rid (fun r => { r with copies := r.copies.set i (some pid) }), true)
      | none =>
        (updRes s rid (fun r =>
          { r with queue := pyHeappush (tupLt s) r.queue (Process.priority s pid, pid) }), false)

/-- The expiry sweep at the top of Mirror.tick: a Python for statement over
the live list, whose iterator advances by index while transaction_finish
removes elements from the same list. -/
def Mirror.tick_expire : Nat → MirrorState → Nat → MirrorState
  | 0, s, _ => s
  | fuel + 1, s, i =>
    if i < s.transactions.length then
      let tid := s.transactions.getD i 0
      if (s.tx tid).deadline < s.clock then
        let s := Transaction.abort fuel s tid
        let s := Mirror.transaction_finish s tid true
        Mirror.tick_expire fuel s (i + 1)
      else Mirror.tick_expire fuel s (i + 1)
    else s

/-- The accumulation loop of Mirror.pick_processes, walking the heap list
in storage order. -/
def pickLoop (s : MirrorState) : List (Int × ProcId) → List ProcId → List ProcId
  | [], acc => acc
  | (_, p) :: rest, acc =>
    if (s.proc p).pstate = 0 then pickLoop s rest (acc ++ [p])
    else if Process.blocking s p then pickLoop s rest acc
    else pickLoop s rest (acc ++ [p])

/-- Mirror.pick_processes: collect runnable processes from the heap list,
then truncate to num. -/
def Mirror.pick_processes (s : MirrorState) (num : Nat) : List ProcId :=
  (pickLoop s s.processes []).take num

/-- Mirror.__init__: the full per-run state as the constructor leaves it.
Its only input is the options record; the source keeps no RNG state and
accepts no seed. -/
def Mirror.init (options : MirrorOptions) : MirrorState :=
  { options := options, clock := 0, finished := 0, missed := 0, started := 0,
    badtick := 0, transactions := [], processes := [], procs := [], txs := [],
    ress := [], nextProc := 0 }

/-- Decidable form of the lock-agreement invariant of the spec: for every
Resource r, Lock l in r.copies and Process p, l.holder is p exactly when
p.lock is l. -/
def lockAgreeB (s : MirrorState) : Bool :=
  s.ress.all (fun rr =>
    (List.range rr.2.copies.length).all (fun i =>
      s.procs.all (fun pp =>
        decide ((rr.2.copies.getD i none = some pp.1) ↔ (pp.2.lock = some (rr.1, i))))))

/-- A state mid-run: resource 0 has a single copy held by process 0 of
transaction 0 (deadline 50); process 2 of transaction 2 (deadline 100) is
about to request the resource.  The wait queue is empty. -/
def sigmaC1 : MirrorState :=
  { options := { Mirror.default_options with replicas := 1 },
    clock := 10, finished := 7, missed := 3, started := 12, badtick := 5,
    transactions := [0, 2],
    processes := [(50, 0), (100, 2)],
    procs :=
      [(0, { owner := 0, arrival := 1, length := 20, add_length := 0,
             progress := 3, ptype := 0, pstate := 1, target := 0,
             updaters := [], lock := some (0, 0), last_tick := 0 }),
       (2, { owner := 2, arrival := 10, length := 20, add_length := 0,
             progress := 0, ptype := 0, pstate := 0, target := 0,
             updaters := [], lock := none, last_tick := 0 })],
    txs :=
      [(0, { processes := [0], dependencies := [0], arrival := 1, deadline := 50 }),
       (2, { processes := [2], dependencies := [0], arrival := 10, deadline := 100 })],
    ress := [(0, { copies := [some 0], queue := [] })],
    nextProc := 3 }

/-- The state sigmaC1 after process 2 calls acquire on resource 0. -/
def sigmaC1post : MirrorState × Bool :=
  Resource.acquire 20 sigmaC1 0 2 (fun _ => 1) (fun _ => 1)

/-- Like sigmaC1, but a third process (id 1, of transaction 1 with
deadline 40) already waits in the queue of resource 0: it was enqueued by
PB because pa_pb(holder 0, process 1) is false there. -/
def sigmaC2 : MirrorState :=
  { options := { Mirror.default_options with replicas := 1 },
    clock := 10, finished := 0, missed := 0, started := 3, badtick := 0,
    transactions := [0, 1, 2],
    processes := [(40, 1), (50, 0), (100, 2)],
    procs :=
      [(0, { owner := 0, arrival := 1, length := 20, add_length := 0,
             progress := 3, ptype := 0, pstate := 1, target := 0,
             updaters := [], lock := some (0, 0), last_tick := 0 }),
       (1, { owner := 1, arrival := 2, length := 20, add_length := 0,
             progress := 0, ptype := 0, pstate := 1, target := 0,
             updaters := [], lock := none, last_tick := 0 }),
       (2, { owner := 2, arrival := 10, length := 20, add_length := 0,
             progress := 0, ptype := 0, pstate := 0, target := 0,
             updaters := [], lock := none, last_tick := 0 })],
    txs :=
      [(0, { processes := [0], dependencies := [0], arrival := 1, deadline := 50 }),
       (1, { processes := [1], dependencies := [0], arrival := 2, deadline := 40 }),
       (2, { processes := [2], dependencies := [0], arrival := 10, deadline := 100 })],
    ress := [(0, { copies := [some 0], queue := [(40, 1)] })],
    nextProc := 3 }

/-- The state sigmaC2 after process 2 calls acquire on resource 0. -/
def sigmaC2post : MirrorState × Bool :=
  Resource.acquire 20 sigmaC2 0 2 (fun _ => 1) (fun _ => 1)

/-- A minimal state for evaluating the pa_pb policy: worker process 0 in
Expand holds a lock, its transaction has deadline 50; process 1 belongs to
a transaction with deadline 100; process 2 to another with deadline 50. -/
def sigmaC3 : MirrorState :=
  { options := Mirror.default_options,
    clock := 5, finished := 0, missed := 0, started := 3, badtick := 0,
    transactions := [0, 1, 2],
    processes := [],
    procs :=
      [(0, { owner := 0, arrival := 1, length := 20, add_length := 0,
             progress := 2, ptype := 0, pstate := 1, target := 0,
             updaters := [], lock := some (0, 0), last_tick := 0 }),
       (1, { owner := 1, arrival := 2, length := 20, add_length := 0,
             progress := 0, ptype := 0, pstate := 0, target := 0,
             updaters := [], lock := none, last_tick := 0 }),
       (2, { owner := 2, arrival := 3, length := 20, add_length := 0,
             progress := 0, ptype := 0, pstate := 0, target := 0,
             updaters := [], lock := none, last_tick := 0 })],
    txs :=
      [(0, { processes := [0], dependencies := [0], arrival := 1, deadline := 50 }),
       (1, { processes := [1], dependencies := [0], arrival := 2, deadline := 100 }),
       (2, { processes := [2], dependencies := [0], arrival := 3, deadline := 50 })],
    ress := [(0, { copies := [some 0], queue := [] })],
    nextProc := 3 }

/-- A base state with an empty global heap and three Begin processes whose
transactions have deadlines 5, 3 and 4. -/
def sigmaC4base : MirrorState :=
  { options := Mirror.default_options,
    clock := 0, finished := 0, missed := 0, started := 3, badtick := 0,
    transactions := [0, 1, 2],
    processes := [],
    procs :=
      [(1, { owner := 0, arrival := 0, length := 20, add_length := 0,
             progress := 0, ptype := 0, pstate := 0, target := 0,
             updaters := [], lock := none, last_tick := 0 }),
       (2, { owner := 1, arrival := 0, length := 20, add_length := 0,
             progress := 0, ptype := 0, pstate := 0, target := 1,
             updaters := [], lock := none, last_tick := 0 }),
       (3, { owner := 2, arrival := 0, length := 20, add_length := 0,
             progress := 0, ptype := 0, pstate := 0, target := 2,
             updaters := [], lock := none, last_tick := 0 })],
    txs :=
      [(0, { processes := [1], dependencies := [0], arrival := 0, deadline := 5 }),
       (1, { processes := [2], dependencies := [1], arrival := 0, deadline := 3 }),
       (2, { processes := [3], dependencies := [2], arrival := 0, deadline := 4 })],
    ress := [(0, { copies := [none], queue := [] }),
             (1, { copies := [none], queue := [] }),
             (2, { copies := [none], queue := [] })],
    nextProc := 4 }

/-- sigmaC4base after submitting processes 1, 2, 3 in that order: the heap
list heapq builds is [(3, 2), (5, 1), (4, 3)]. -/
def sigmaC4 : MirrorState :=
  Mirror.submit_job (Mirror.submit_job (Mirror.submit_job sigmaC4base 1) 2) 3

/-- Two live transactions 0 and 1, both with deadline 5, both already
expired at clock 10, adjacent in the live list. -/
def sigmaC5 : MirrorState :=
  { options := Mirror.default_options,
    clock := 10, finished := 0, missed := 0, started := 2, badtick := 0,
    transactions := [0, 1],
    processes := [],
    procs := [],
    txs :=
      [(0, { processes := [], dependencies := [], arrival := 0, deadline := 5 }),
       (1, { processes := [], dependencies := [], arrival := 0, deadline := 5 })],
    ress := [],
    nextProc := 0 }

/-- A freshly created transaction 0 at clock 7, before begin runs: no
processes, placeholder deadline, as Transaction.__init__ leaves it. -/
def sigmaC6 : MirrorState :=
  { options := Mirror.default_options,
    clock := 7, finished := 0, missed := 0, started := 1, badtick := 0,
    transactions := [0],
    processes := [],
    procs := [],
    txs := [(0, { processes := [], dependencies := [], arrival := 7, deadline := -1 })],
    ress := [(0, { copies := [none, none, none, none], queue := [] }),
             (1, { copies := [none, none, none, none], queue := [] })],
    nextProc := 0 }

/-- A Writer (process 0, arrival 5) of transaction 0 (deadline 100) in
Contract, holding the single copy of resource 0, about to spawn its
updater at clock 5, the same tick its transaction spawned it (reachable
when access_time and spawn_time are configured at 0). -/
def sigmaC10base : MirrorState :=
  { options := Mirror.default_options,
    clock := 5, finished := 0, missed := 0, started := 1, badtick := 0,
    transactions := [0],
    processes := [],
    procs :=
      [(0, { owner := 0, arrival := 5, length := 10, add_length := 0,
             progress := 10, ptype := 1, pstate := 2, target := 0,
             updaters := [], lock := some (0, 0), last_tick := 0 })],
    txs :=
      [(0, { processes := [0], dependencies := [0], arrival := 5, deadline := 100 })],
    ress := [(0, { copies := [some 0], queue := [] })],
    nextProc := 1 }

/-- sigmaC10base after spawn_updater creates updater 1 (arrival 5, the
arrival tick of its sibling process 0), followed by the writer and the
updater finishing their work: both Complete, the lock released.  This is
the state in which the completion path invokes commit on the updater. -/
def sigmaC10 : MirrorState :=
  let s := Process.spawn_updater sigmaC10base 0
  let s := updProc s 0 (fun p => { p with pstate := 3, lock := none })
  let s := updProc s 1 (fun p => { p with pstate := 3 })
  updRes s 0 (fun r => { r with copies := [none] })

/-- The scheduler-skip predicate as the spec words it: Complete, or
waiting on a hand-off, or a Writer with all updaters spawned and one not
yet in Contract, or an Updater that reached Contract. -/
def Process.blockingSpec (s : MirrorState) (pid : ProcId) : Bool :=
  let p := s.proc pid
  decide (p.pstate = 3) ||
    (decide (p.pstate ≠ 0) && decide (p.lock = none)) ||
    (decide (p.ptype = 1) && decide (s.options.replicas - 1 ≤ p.updaters.length) &&
      p.updaters.any (fun u => (s.proc u).pstate < 2)) ||
    (decide (p.ptype = 2) && decide (2 ≤ p.pstate))

lemma pickLoop_eq_filter (s : MirrorState) :
    ∀ (l : List (Int × ProcId)) (acc : List ProcId),
      pickLoop s l acc =
        acc ++ (l.map Prod.snd).filter
          (fun p => decide ((s.proc p).pstate = 0) || !Process.blocking s p) := by
  intro l
  induction l with
  | nil => intro acc; simp [pickLoop]
  | cons x rest ih =>
    intro acc
    obtain ⟨k, p⟩ := x
    by_cases h0 : (s.proc p).pstate = 0
    · have hb : (decide ((s.proc p).pstate = 0) || !Process.blocking s p) = true := by
        simp [h0]
      simp [pickLoop, h0, ih, List.filter_cons, hb]
    · by_cases hbl : Process.blocking s p
      · have hb : (decide ((s.proc p).pstate = 0) || !Process.blocking s p) = false := by
          simp [h0, hbl]
        simp [pickLoop, h0, hbl, ih, List.filter_cons, hb]
      · have hb : (decide ((s.proc p).pstate = 0) || !Process.blocking s p) = true := by
          simp [h0, hbl]
        simp [pickLoop, h0, hbl, ih, List.filter_cons, hb]

/-- C4 (amended): pick_processes walks the heap's backing list in storage
order — not in sorted priority order — keeping Begin-state processes
unconditionally and skipping blocking ones, and truncates to num. -/
theorem pick_processes_array_order (s : MirrorState) (num : Nat) :
    Mirror.pick_processes s num =
      ((s.processes.map Prod.snd).filter
        (fun p => decide ((s.proc p).pstate = 0) || !Process.blocking s p)).take num := by
  unfold Mirror.pick_processes
  rw [pickLoop_eq_filter]
  simp

/-- C7: the blocking predicate of the source coincides with the
four-clause description of the spec on every process satisfying two facts
of every run: states stay in Begin..Complete, and updaters are appended
only once a process has reached Contract (states never decrease). -/
theorem blocking_matches_spec (s : MirrorState) (pid : ProcId)
    (hstate : (s.proc pid).pstate ≤ 3)
    (h : (s.proc pid).updaters ≠ [] → 2 ≤ (s.proc pid).pstate) :
    Process.blocking s pid = Process.blockingSpec s pid := by
  unfold Process.blocking Process.blockingSpec Process.spawning
  by_cases hu : (s.proc pid).updaters = []
  · by_cases h3 : (s.proc pid).pstate = 3 <;>
      by_cases h0 : (s.proc pid).pstate ≠ 0 ∧ (s.proc pid).lock = none <;>
      by_cases h2 : (s.proc pid).ptype = 2 ∧ 2 ≤ (s.proc pid).pstate <;>
      simp_all
  · have h2 : 2 ≤ (s.proc pid).pstate := h hu
    by_cases h3 : (s.proc pid).pstate = 3
    · simp [h3]
    · have hst : (s.proc pid).pstate = 2 := by omega
      by_cases hl : (s.proc pid).lock = none
      · simp [hst, hl]
      · by_cases hw : (s.proc pid).ptype = 1
        · by_cases hlen : (s.proc pid).updaters.length < s.options.replicas - 1
          · have hlen2 : ¬ s.options.replicas - 1 ≤ (s.proc pid).updaters.length := by
              omega
            simp [hst, hl, hw, hlen, hlen2]
          · have hlen2 : s.options.replicas - 1 ≤ (s.proc pid).updaters.length := by
              omega
            cases hany : (s.proc pid).updaters.any (fun v => (s.proc v).pstate < 2) <;>
              simp [hst, hl, hw, hlen, hlen2, hany]
        · by_cases h2t : (s.proc pid).ptype = 2
          · simp [hst, hl, hw, h2t]
          · simp [hst, hl, hw, h2t]

/-- Witness for C7 at a concrete input: worker 0 of sigmaC3 in Expand
holding its lock. -/
theorem blocking_matches_spec_witness :
    Process.blocking sigmaC3 0 = Process.blockingSpec sigmaC3 0 :=
  blocking_matches_spec sigmaC3 0 (by decide) (by decide)

lemma alook_append_left {β : Type} (l l₂ : List (Nat × β)) (k : Nat)
    (h : (alook l k).isSome) : alook (l ++ l₂) k = alook l k := by
  induction l with
  | nil => simp [alook] at h
  | cons kv t ih =>
    obtain ⟨a, v⟩ := kv
    by_cases hk : k = a
    · simp [alook, hk]
    · rw [alook] at h
      rw [if_neg hk] at h
      show alook ((a, v) :: (t ++ l₂)) k = _
      rw [alook, alook, if_neg hk, if_neg hk]
      exact ih h

lemma alook_append_right {β : Type} (l l₂ : List (Nat × β)) (k : Nat)
    (h : alook l k = none) : alook (l ++ l₂) k = alook l₂ k := by
  induction l with
  | nil => simp
  | cons kv t ih =>
    obtain ⟨a, v⟩ := kv
    by_cases hk : k = a
    · rw [alook, if_pos hk] at h
      exact absurd h (by simp)
    · rw [alook, if_neg hk] at h
      show alook ((a, v) :: (t ++ l₂)) k = _
      rw [alook, if_neg hk]
      exact ih h

lemma alook_map_upd {β : Type} (l : List (Nat × β)) (k : Nat) (f : β → β) :
    alook (l.map (fun kv => if kv.1 = k then (kv.1, f kv.2) else kv)) k =
      (alook l k).map f := by
  induction l with
  | nil => simp [alook]
  | cons kv t ih =>
    obtain ⟨a, v⟩ := kv
    by_cases ha : a = k
    · subst ha
      show alook ((if a = a then (a, f v) else (a, v)) :: _) a = _
      rw [if_pos rfl, alook, if_pos rfl, alook, if_pos rfl]
      simp
    · show alook ((if a = k then (a, f v) else (a, v)) :: _) k = _
      rw [if_neg ha, alook, alook]
      by_cases hk : k = a
      · exact absurd hk.symm ha
      · rw [if_neg hk, if_neg hk]
        exact ih

lemma alook_map_upd_ne {β : Type} (l : List (Nat × β)) (k k' : Nat) (f : β → β)
    (hne : k' ≠ k) :
    alook (l.map (fun kv => if kv.1 = k then (kv.1, f kv.2) else kv)) k' =
      alook l k' := by
  induction l with
  | nil => simp
  | cons kv t ih =>
    obtain ⟨a, v⟩ := kv
    by_cases ha : a = k
    · subst ha
      show alook ((if a = a then (a, f v) else (a, v)) :: _) k' = _
      rw [if_pos rfl, alook, alook, if_neg (by omega), if_neg (by omega)]
      exact ih
    · show alook ((if a = k then (a, f v) else (a, v)) :: _) k' = _
      rw [if_neg ha, alook, alook]
      by_cases hk : k' = a
      · rw [if_pos hk, if_pos hk]
      · rw [if_neg hk, if_neg hk]
        exact ih

lemma alook_none_of_keys_lt {β : Type} (l : List (Nat × β)) (n : Nat)
    (h : ∀ kv ∈ l, kv.1 < n) : alook l n = none := by
  induction l with
  | nil => simp [alook]
  | cons kv t ih =>
    obtain ⟨a, v⟩ := kv
    have ha : a < n := h (a, v) (by simp)
    rw [alook, if_neg (by omega)]
    exact ih (fun kv hk => h kv (by simp [hk]))

lemma getD_append_length {α : Type} [Inhabited α] (l : List α) (a d : α) :
    (l ++ [a]).getD l.length d = a := by
  induction l with
  | nil => simp
  | cons x t ih => simp

lemma self_mem_set {α : Type} (l : List α) (n : Nat) (a : α) (h : n < l.length) :
    a ∈ l.set n a := by
  have h2 : n < (l.set n a).length := by simpa using h
  exact List.mem_iff_getElem.mpr ⟨n, h2, List.getElem_set_self h2⟩

lemma mem_pySiftdownLoop {α : Type} [Inhabited α] (lt : α → α → Bool) (newitem : α) :
    ∀ (bound : Nat) (heap : List α) (startpos pos : Nat), pos < heap.length →
      newitem ∈ pySiftdownLoop lt newitem bound heap startpos pos := by
  intro bound
  induction bound with
  | zero =>
    intro heap startpos pos hpos
    unfold pySiftdownLoop
    exact self_mem_set _ _ _ hpos
  | succ b ih =>
    intro heap startpos pos hpos
    rw [pySiftdownLoop]
    split
    · show newitem ∈
        (if lt newitem (heap.getD ((pos - 1) / 2) default) = true then
          pySiftdownLoop lt newitem b
            (heap.set pos (heap.getD ((pos - 1) / 2) default)) startpos ((pos - 1) / 2)
        else heap.set pos newitem)
      split
      · exact ih _ _ _ (by simp; omega)
      · exact self_mem_set _ _ _ hpos
    · exact self_mem_set _ _ _ hpos

lemma mem_pyHeappush {α : Type} [Inhabited α] (lt : α → α → Bool)
    (heap : List α) (item : α) : item ∈ pyHeappush lt heap item := by
  unfold pyHeappush pySiftdown
  rw [getD_append_length]
  exact mem_pySiftdownLoop lt item _ _ _ _ (by simp)

/-- C10 (amended): spawn_updater submits the new Updater to the scheduler
(a pair carrying its id enters the global heap) and appends it to the
parent updaters list, while the transaction store — hence every processes
list that commit and abort quantify over — is untouched; and commit on a
process past the deadline check returns the state unchanged whenever no
stored process of the transaction compares equal to it under Process
equality, which is priority and arrival agreement. -/
theorem spawn_updater_frame_and_commit :
    (∀ (s : MirrorState) (parent : ProcId),
      (Process.spawn_updater s parent).txs = s.txs ∧
      ((alook s.procs parent).isSome →
        ((Process.spawn_updater s parent).proc parent).updaters
          = (s.proc parent).updaters ++ [s.nextProc]) ∧
      ∃ k, (k, s.nextProc) ∈ (Process.spawn_updater s parent).processes) ∧
    (∀ (fuel : Nat) (s : MirrorState) (tid : TxId) (pid : ProcId),
      ¬ (s.tx tid).deadline < s.clock →
      (∀ q ∈ (s.tx tid).processes, Process.eqPy s q pid = false) →
      Transaction.commit (fuel + 1) s tid pid = s) := by
  constructor
  · intro s parent
    refine ⟨rfl, ?_, ?_⟩
    · intro hp
      obtain ⟨v, hv⟩ := Option.isSome_iff_exists.mp hp
      simp only [Process.spawn_updater, Mirror.submit_job, updProc, MirrorState.proc]
      rw [alook_map_upd _ parent
        (fun p : Proc => { p with updaters := p.updaters ++ [s.nextProc] })]
      rw [alook_append_left _ _ _ (by simp [hv])]
      rw [hv]
      simp
    · refine ⟨_, mem_pyHeappush _ _ _⟩
  · intro fuel s tid pid hclock hmem
    have hany : ((s.tx tid).processes.any (fun q => Process.eqPy s q pid)) = false := by
      simp only [List.any_eq_false]
      intro q hq
      simp [hmem q hq]
    simp [Transaction.commit, mirrorStep, hclock, hany]

/-- Witness for C10 at concrete inputs: the updater spawned on
sigmaC10base lands in the updaters list of its parent, and commit on
sigmaC3 with a process no stored process equals leaves the state
untouched. -/
theorem spawn_updater_frame_and_commit_witness :
    ((Process.spawn_updater sigmaC10base 0).proc 0).updaters
        = (sigmaC10base.proc 0).updaters ++ [sigmaC10base.nextProc] ∧
    Transaction.commit 1 sigmaC3 0 1 = sigmaC3 :=
  ⟨(spawn_updater_frame_and_commit.1 sigmaC10base 0).2.1 (by decide),
   spawn_updater_frame_and_commit.2 0 sigmaC3 0 1 (by decide) (by decide)⟩

/-- C9: invoked past the deadline on a live transaction, commit records
the miss and removes the transaction from the live list and changes
nothing else: the process store (hence every lock back-reference), the
resource store (hence every lock holder and queue entry) and the global
process heap of the result are those of the input state. -/
theorem commit_past_deadline_frame (fuel : Nat) (s : MirrorState)
    (tid : TxId) (pid : ProcId)
    (hd : (s.tx tid).deadline < s.clock) (hlive : tid ∈ s.transactions) :
    Transaction.commit (fuel + 1) s tid pid =
      { s with missed := s.missed + 1,
               transactions := s.transactions.erase tid } := by
  simp [Transaction.commit, mirrorStep, Mirror.transaction_finish, hd, hlive]

/-- Witness for C9 at a concrete input: transaction 0 of sigmaC5 has
deadline 5 against clock 10 and is live. -/
theorem commit_past_deadline_frame_witness :
    Transaction.commit 1 sigmaC5 0 0 =
      { sigmaC5 with missed := sigmaC5.missed + 1,
                     transactions := sigmaC5.transactions.erase 0 } :=
  commit_past_deadline_frame 0 sigmaC5 0 0 (by decide) (by decide)

/-- The closed form of the expected-length sum of begin: starting at draw
index i, for n processes, access_time plus write_time when the writer
draw fires. -/
def expectedLenSumQ (ops : MirrorOptions) (q2 : Nat → Rat) : Nat → Nat → Int
  | _, 0 => 0
  | i, n + 1 =>
    (ops.access_time + (if q2 i < ops.write_chance then ops.write_time else 0)) +
      expectedLenSumQ ops q2 (i + 1) n

lemma tx_updTx_some (s : MirrorState) (tid : TxId) (f : Tx → Tx) (t : Tx)
    (h : alook s.txs tid = some t) : (updTx s tid f).tx tid = f t := by
  simp only [MirrorState.tx, updTx]
  rw [alook_map_upd, h]
  rfl

lemma expectedSum_append (s : MirrorState) (a b : List ProcId) :
    expectedSum s (a ++ b) = expectedSum s a + expectedSum s b := by
  unfold expectedSum
  rw [List.map_append, List.sum_append]

lemma expectedSum_congr (s s' : MirrorState) (ps : List ProcId)
    (hops : s'.options = s.options)
    (h : ∀ pid ∈ ps, s'.proc pid = s.proc pid) :
    expectedSum s' ps = expectedSum s ps := by
  unfold expectedSum
  rw [hops]
  congr 1
  exact List.map_congr_left (fun pid hpid => by rw [h pid hpid])

lemma spawnLoop_spec (q1 q2 : Nat → Rat) (tid : TxId) :
    ∀ (rs : List ResId) (s : MirrorState) (i : Nat),
      (∀ kv ∈ s.procs, kv.1 < s.nextProc) →
      (alook s.txs tid).isSome →
      (∀ pid ∈ (s.tx tid).processes, (alook s.procs pid).isSome) →
      ((spawnLoop s tid rs i q1 q2).options = s.options ∧
       (alook (spawnLoop s tid rs i q1 q2).txs tid).isSome ∧
       ((spawnLoop s tid rs i q1 q2).tx tid).deadline = (s.tx tid).deadline ∧
       ((spawnLoop s tid rs i q1 q2).tx tid).arrival = (s.tx tid).arrival ∧
       expectedSum (spawnLoop s tid rs i q1 q2)
           (((spawnLoop s tid rs i q1 q2).tx tid).processes) =
         expectedSum s ((s.tx tid).processes) +
           expectedLenSumQ s.options q2 i rs.length) := by
  intro rs
  induction rs with
  | nil =>
    intro s i hfresh hsome hmem
    simp [spawnLoop, expectedLenSumQ, hsome]
  | cons r rest ih =>
    intro s i hfresh hsome hmem
    obtain ⟨t, ht⟩ := Option.isSome_iff_exists.mp hsome
    have hts : (s.tx tid) = t := by
      unfold MirrorState.tx
      rw [ht]
      rfl
    have hnone : alook s.procs s.nextProc = none := alook_none_of_keys_lt _ _ hfresh
    have hprocs1 : (spawnOne s tid r i q1 q2).procs =
        s.procs ++ [(s.nextProc, spawnProc s tid r i q1 q2)] := rfl
    have hnext1 : (spawnOne s tid r i q1 q2).nextProc = s.nextProc + 1 := rfl
    have hops1 : (spawnOne s tid r i q1 q2).options = s.options := rfl
    have htxs1 : (spawnOne s tid r i q1 q2).txs =
        s.txs.map
          (fun kv => if kv.1 = tid then
            (kv.1, { kv.2 with processes := kv.2.processes ++ [s.nextProc] })
            else kv) := rfl
    have htx1 : alook (spawnOne s tid r i q1 q2).txs tid =
        some { t with processes := t.processes ++ [s.nextProc] } := by
      rw [htxs1]
      rw [alook_map_upd _ tid
        (fun u : Tx => { u with processes := u.processes ++ [s.nextProc] })]
      rw [ht]
      rfl
    have htx1v : (spawnOne s tid r i q1 q2).tx tid =
        { t with processes := t.processes ++ [s.nextProc] } := by
      unfold MirrorState.tx
      rw [htx1]
      rfl
    have hfresh1 : ∀ kv ∈ (spawnOne s tid r i q1 q2).procs,
        kv.1 < (spawnOne s tid r i q1 q2).nextProc := by
      rw [hprocs1, hnext1]
      intro kv hkv
      rcases List.mem_append.mp hkv with hin | hin
      · exact Nat.lt_succ_of_lt (hfresh kv hin)
      · rw [List.mem_singleton] at hin
        subst hin
        simp
    have hsome1 : (alook (spawnOne s tid r i q1 q2).txs tid).isSome := by
      rw [htx1]
      rfl
    have hpnew : alook (spawnOne s tid r i q1 q2).procs s.nextProc =
        some (spawnProc s tid r i q1 q2) := by
      rw [hprocs1]
      rw [alook_append_right _ _ _ hnone]
      simp [alook]
    have hmem1 : ∀ pid ∈ ((spawnOne s tid r i q1 q2).tx tid).processes,
        (alook (spawnOne s tid r i q1 q2).procs pid).isSome := by
      rw [htx1v, hprocs1]
      intro pid hpid
      rcases List.mem_append.mp hpid with hin | hin
      · have := hmem pid (by rw [hts]; exact hin)
        rw [alook_append_left _ _ _ this]
        exact this
      · simp at hin
        subst hin
        rw [alook_append_right _ _ _ hnone]
        simp [alook]
    have hold : ∀ pid ∈ (s.tx tid).processes,
        (spawnOne s tid r i q1 q2).proc pid = s.proc pid := by
      intro pid hpid
      unfold MirrorState.proc
      rw [hprocs1, alook_append_left _ _ _ (hmem pid hpid)]
    obtain ⟨c1, c2, c3, c4, c5⟩ := ih (spawnOne s tid r i q1 q2) (i + 1) hfresh1 hsome1 hmem1
    have hloop : spawnLoop s tid (r :: rest) i q1 q2 =
        spawnLoop (spawnOne s tid r i q1 q2) tid rest (i + 1) q1 q2 := rfl
    rw [hloop]
    refine ⟨by rw [c1, hops1], c2, ?_, ?_, ?_⟩
    · rw [c3, htx1v, hts]
    · rw [c4, htx1v, hts]
    · rw [c5, htx1v]
      simp only []
      rw [expectedSum_append]
      have hsold : expectedSum (spawnOne s tid r i q1 q2) t.processes =
          expectedSum s t.processes := by
        exact expectedSum_congr s (spawnOne s tid r i q1 q2) t.processes hops1
          (fun pid hpid => hold pid (by rw [hts]; exact hpid))
      have hnewp : (spawnOne s tid r i q1 q2).proc s.nextProc =
          spawnProc s tid r i q1 q2 := by
        unfold MirrorState.proc
        rw [hpnew]
        rfl
      have hsnew : expectedSum (spawnOne s tid r i q1 q2) [s.nextProc] =
          s.options.access_time +
            (if q2 i < s.options.write_chance then s.options.write_time else 0) := by
        unfold expectedSum
        simp only [List.map_cons, List.map_nil, List.sum_cons, List.sum_nil]
        rw [hnewp, hops1]
        unfold spawnProc
        by_cases hw : q2 i < s.options.write_chance <;> simp [hw]
      rw [hsold, hsnew, hts, hops1]
      show expectedSum s t.processes +
          (s.options.access_time + _) + expectedLenSumQ s.options q2 (i + 1) rest.length = _
      simp only [List.length_cons]
      rw [expectedLenSumQ]
      ring

/-- C6: the deadline begin computes equals arrival plus deadline_slack
times the sum, over the processes just created, of access_time plus
write_time for writers — a formula in the writer draws q2 alone, so the
deadline is independent of the buffered draws q1, which enter only the
lengths.  The hypotheses state facts of every live state: allocated
process ids are below the allocator and a fresh transaction has no
processes. -/
theorem begin_deadline_formula (s : MirrorState) (tid : TxId) (picks : List ResId)
    (q1 q2 : Nat → Rat)
    (hfresh : ∀ kv ∈ s.procs, kv.1 < s.nextProc)
    (hsome : (alook s.txs tid).isSome)
    (hempty : (s.tx tid).processes = []) :
    ((Transaction.begin s tid picks q1 q2).tx tid).deadline =
      (s.tx tid).arrival +
        expectedLenSumQ s.options q2 0 picks.length * s.options.deadline_slack := by
  obtain ⟨t, ht⟩ := Option.isSome_iff_exists.mp hsome
  have hts : s.tx tid = t := by
    unfold MirrorState.tx
    rw [ht]
    rfl
  unfold Transaction.begin Transaction.spawn_processes
  simp only []
  set s2 := updTx (updTx s tid (fun u => { u with deadline := u.arrival })) tid
    (fun u => { u with dependencies := picks }) with hs2
  have htx2 : alook s2.txs tid =
      some { t with deadline := t.arrival, dependencies := picks } := by
    rw [hs2]
    unfold updTx
    simp only []
    rw [alook_map_upd _ tid (fun u : Tx => { u with dependencies := picks })]
    rw [alook_map_upd _ tid (fun u : Tx => { u with deadline := u.arrival })]
    rw [ht]
    rfl
  have htx2v : s2.tx tid = { t with deadline := t.arrival, dependencies := picks } := by
    unfold MirrorState.tx
    rw [htx2]
    rfl
  have hprocs2 : s2.procs = s.procs := rfl
  have hnext2 : s2.nextProc = s.nextProc := rfl
  have hops2 : s2.options = s.options := rfl
  have hfresh2 : ∀ kv ∈ s2.procs, kv.1 < s2.nextProc := by
    rw [hprocs2, hnext2]
    exact hfresh
  have hsome2 : (alook s2.txs tid).isSome := by
    rw [htx2]
    rfl
  have hmem2 : ∀ pid ∈ (s2.tx tid).processes, (alook s2.procs pid).isSome := by
    rw [htx2v]
    intro pid hpid
    rw [hts] at hempty
    simp only [hempty] at hpid
    exact absurd hpid (List.not_mem_nil pid)
  obtain ⟨c1, c2, c3, c4, c5⟩ := spawnLoop_spec q1 q2 tid picks s2 0 hfresh2 hsome2 hmem2
  have hdep : (s2.tx tid).dependencies = picks := by
    rw [htx2v]
  rw [hdep]
  set s3 := spawnLoop s2 tid picks 0 q1 q2 with hs3
  obtain ⟨u, hu⟩ := Option.isSome_iff_exists.mp c2
  have hu3 : s3.tx tid = u := by
    unfold MirrorState.tx
    rw [hu]
    rfl
  rw [tx_updTx_some s3 tid _ u hu]
  have hdl : u.deadline = t.arrival := by
    rw [← hu3, c3, htx2v]
  have hsum : expectedSum s3 ((s3.tx tid).processes) =
      expectedLenSumQ s.options q2 0 picks.length := by
    rw [c5]
    have h1 : (s2.tx tid).processes = [] := by
      rw [htx2v]
      show t.processes = []
      rw [← hts]
      exact hempty
    rw [h1, hops2]
    have h0 : expectedSum s2 [] = 0 := by
      unfold expectedSum
      simp
    rw [h0]
    exact zero_add _
  have hops3 : s3.options = s.options := by
    rw [c1, hops2]
  show u.deadline + expectedSum s3 ((s3.tx tid).processes) * s3.options.deadline_slack =
      (s.tx tid).arrival +
        expectedLenSumQ s.options q2 0 picks.length * s.options.deadline_slack
  rw [hdl, hsum, hts, hops3]

/-- Witness for C6 at a concrete input: a fresh transaction of sigmaC6
with arrival 7, two picked resources and writer draws that fire on both,
giving deadline 7 + ((20 + 2) + (20 + 2)) times 6. -/
theorem begin_deadline_formula_witness :
    ((Transaction.begin sigmaC6 0 [0, 1] (fun _ => 1) (fun _ => 0)).tx 0).deadline =
      (sigmaC6.tx 0).arrival +
        expectedLenSumQ sigmaC6.options (fun _ => 0) 0 2 * sigmaC6.options.deadline_slack :=
  begin_deadline_formula sigmaC6 0 [0, 1] (fun _ => 1) (fun _ => 0)
    (by intro kv hkv; simp [sigmaC6] at hkv) (by decide) (by decide)

/-- C1: in the successful PA preemption branch of Resource.acquire the
requestor is seated (the call returns true) and every counter the Mirror
state carries — finished, missed, started, badtick, the full counter set
of Mirror.__init__ — is unchanged: no abort counter exists and none is
incremented, so no cc_aborts statistic can report the preemption. -/
theorem acquire_pa_counters_unchanged :
    sigmaC1post.2 = true ∧ sigmaC1post.1.finished = 7 ∧
    sigmaC1post.1.missed = 3 ∧ sigmaC1post.1.started = 12 ∧
    sigmaC1post.1.badtick = 5 :=
  ⟨rfl, rfl, rfl, rfl, rfl⟩

/-- C2: the lock-agreement invariant holds before process 2 preempts the
holder of resource 0, and is broken after: the release inside the victim
restart hands the copy to queued process 1 (whose lock back-reference now
names the copy), and acquire then overwrites the holder with process 2,
so process 1 has lock = copies[0] while copies[0].holder is process 2. -/
theorem acquire_preempt_breaks_lock_agreement :
    lockAgreeB sigmaC2 = true ∧ sigmaC2post.2 = true ∧
    lockAgreeB sigmaC2post.1 = false ∧
    (sigmaC2post.1.proc 1).lock = some (0, 0) ∧
    (sigmaC2post.1.res 0).copies = [some 2] :=
  ⟨rfl, rfl, rfl, rfl, rfl⟩

/-- C3: pa_pb evaluated on concrete states.  The holder with the earlier
deadline 50 IS preempted by a requestor with the later deadline 100, and a
holder with deadline 100 is NOT preempted by an earlier-deadline
requestor: the policy compares holder.priority < requestor.priority, the
reverse of preemption in favor of an earlier-deadline requestor.  The tie
case returns false. -/
theorem pa_pb_prefers_later_deadline :
    Process.priority sigmaC3 0 = 50 ∧ Process.priority sigmaC3 1 = 100 ∧
    Process.priority sigmaC3 2 = 50 ∧
    Mirror.pa_pb sigmaC3 0 1 = true ∧
    Mirror.pa_pb sigmaC3 1 0 = false ∧
    Mirror.pa_pb sigmaC3 0 2 = false :=
  ⟨rfl, rfl, rfl, rfl, rfl, rfl⟩

/-- C4 counterexample: after three heappush calls the heap list is
[(3, 2), (5, 1), (4, 3)]; pick_processes with num 2 selects processes 2
and 1 in list order, while the not-selected process 3 is not blocking and
strictly precedes the selected process 1 in the priority order (owner
deadline 4 against 5): the selection does not walk the heap in priority
order. -/
theorem pick_processes_priority_order_counterexample :
    sigmaC4.processes = [(3, 2), (5, 1), (4, 3)] ∧
    Mirror.pick_processes sigmaC4 2 = [2, 1] ∧
    Process.blocking sigmaC4 3 = false ∧
    Process.priority sigmaC4 3 < Process.priority sigmaC4 1 :=
  ⟨rfl, rfl, rfl, by decide⟩

/-- C5: with two adjacent expired transactions in the live list, the
expiry sweep of Mirror.tick aborts and records only the first: removing
it from the list being iterated shifts transaction 1 into the consumed
index, so transaction 1 — expired, deadline 5 against clock 10 — is still
live after the sweep and its miss is not recorded this tick. -/
theorem tick_expire_skips_second_expired :
    (sigmaC5.tx 1).deadline < sigmaC5.clock ∧
    (Mirror.tick_expire 10 sigmaC5 0).transactions = [1] ∧
    (Mirror.tick_expire 10 sigmaC5 0).missed = 1 :=
  ⟨by decide, rfl, rfl⟩

/-- C8: Mirror.__init__ evaluated at its failing input MirrorOptions():
the constructor consumes only the options record — whose field list has no
seed — and the state it builds carries no RNG state, so the core exposes
no seed knob with which a replay could be pinned. -/
theorem mirror_init_eval :
    Mirror.init Mirror.default_options =
      { options := Mirror.default_options, clock := 0, finished := 0,
        missed := 0, started := 0, badtick := 0, transactions := [],
        processes := [], procs := [], txs := [], ress := [], nextProc := 0 } :=
  rfl

/-- C10 counterexample: updater 1 was created by spawn_updater with the
same arrival tick and priority as its sibling process 0, so in commit the
membership guard (Process equality is priority and arrival agreement)
passes for it even though it was never appended to the processes list;
commit then runs the completion check and increments the finished
counter, although the deadline check did not fire. -/
theorem commit_updater_guard_passes :
    (sigmaC10.proc 1).ptype = 2 ∧
    ¬ (sigmaC10.tx 0).deadline < sigmaC10.clock ∧
    (Transaction.commit 10 sigmaC10 0 1).finished = sigmaC10.finished + 1 ∧
    (Transaction.commit 10 sigmaC10 0 1).transactions = [] :=
  ⟨rfl, by decide, rfl, rfl⟩

end PyMirror
